import Mathlib

/-!
Shallow embedding of the metrics library in `src/metrics.h` (and its demo
driver `src/main.cpp`): counter and average metrics, the registry's flush
cycle, the background worker loop, and the mutex that guards flushing.

Modelling conventions:
* `std::atomic<int>` (the counter accumulator) is a 32-bit two's-complement
  cell: the stored bit pattern is a `Nat` kept below `2 ^ 32`, and `get`
  reads it back as a signed integer.  `fetch_add` is addition modulo
  `2 ^ 32` (the C++ standard defines atomic signed arithmetic to wrap).
* `double` (the average's sum) is idealised as `ℚ`; the mutex-guarded
  `(sum_, count_)` pair updates atomically, so the sequential fold below is
  exactly the set of states reachable by any interleaving of `add` calls.
* The file sink is the list of records appended so far; `std::ios::app`
  append is list append.  Whether the single `file << oss.str()` write
  succeeds is an explicit `writeOk` argument; the source never inspects the
  stream state afterwards, which the model records in `flush_now`'s error
  component.
* Wall-clock capture is a `Timestamp` argument (the broken-down local time
  plus the millisecond remainder `% 1000` computed at lines 137-143).
-/

namespace Metrics

/-- Two's-complement reading of a stored 32-bit pattern, as performed by
loading the `std::atomic<int> value_` of `CounterMetric`
(src/metrics.h lines 35-38, 45). -/
def toSigned32 (n : Nat) : Int :=
  if n < 2 ^ 31 then (n : Int) else (n : Int) - 2 ^ 32

/-- CounterMetric state (src/metrics.h lines 27-46): a name and the bit
pattern of the `std::atomic<int>` accumulator (kept below `2 ^ 32`). -/
structure CounterMetric where
  name_ : String
  value_ : Nat
deriving DecidableEq

/-- Constructor `CounterMetric(name)` : value initialised to 0
(src/metrics.h line 30). -/
def CounterMetric.new (name : String) : CounterMetric :=
  ⟨name, 0⟩

/-- Method `increment(int v = 1)` : `value_.fetch_add(v)`, which adds
modulo `2 ^ 32` on the 32-bit cell (src/metrics.h lines 31-34).  The C++
default argument is `v = 1`; the model always passes `v` explicitly. -/
def CounterMetric.increment (c : CounterMetric) (v : Int) : CounterMetric :=
  { c with value_ := ((((c.value_ : Int) + v) % (2 ^ 32)).toNat) }

/-- Method `get()` : signed load of the accumulator
(src/metrics.h lines 35-38). -/
def CounterMetric.get (c : CounterMetric) : Int :=
  toSigned32 c.value_

/-- Method `name()` (src/metrics.h line 39). -/
def CounterMetric.name (c : CounterMetric) : String :=
  c.name_

/-- Method `value_string()` : `std::to_string(get())`, the decimal of the
signed value (src/metrics.h line 40). -/
def CounterMetric.value_string (c : CounterMetric) : String :=
  toString c.get

/-- Method `reset()` : store 0 (src/metrics.h line 41). -/
def CounterMetric.reset (c : CounterMetric) : CounterMetric :=
  { c with value_ := 0 }

/-- AverageMetric state (src/metrics.h lines 49-83): a name plus the
mutex-guarded pair `(sum_ : double, count_ : int)`.  `double` is idealised
as `ℚ`; `count_` only ever counts `add` calls, so it is a `Nat`. -/
structure AverageMetric where
  name_ : String
  sum_ : ℚ
  count_ : Nat
deriving DecidableEq

/-- Constructor `AverageMetric(name)` : `(sum_, count_) = (0, 0)`
(src/metrics.h line 52). -/
def AverageMetric.new (name : String) : AverageMetric :=
  ⟨name, 0, 0⟩

/-- Method `add(double v)` : under the metric's mutex, `sum_ += v;
count_ += 1` as one unit (src/metrics.h lines 53-58). -/
def AverageMetric.add (a : AverageMetric) (v : ℚ) : AverageMetric :=
  { a with sum_ := a.sum_ + v, count_ := a.count_ + 1 }

/-- Method `get_average()` : `count_ ? (sum_ / count_) : 0.0`, read under
the same mutex (src/metrics.h lines 59-63). -/
def AverageMetric.get_average (a : AverageMetric) : ℚ :=
  if a.count_ = 0 then 0 else a.sum_ / (a.count_ : ℚ)

/-- Method `name()` (src/metrics.h line 64). -/
def AverageMetric.name (a : AverageMetric) : String :=
  a.name_

/-- Zero-pad a natural number below 100 to two decimal digits, as the
stream manipulators in src/metrics.h do for two-digit fields. -/
def pad2 (n : Nat) : String :=
  if n < 10 then ("0") ++ toString n else toString n

/-- Zero-pad a natural number below 1000 to three decimal digits, as
`std::setw(3) << std::setfill('0')` does (src/metrics.h line 143). -/
def pad3 (n : Nat) : String :=
  if n < 10 then ("00") ++ toString n
  else if n < 100 then ("0") ++ toString n
  else toString n

/-- Rounding of `q` to a count of hundredths, modelling the rounding that
`std::fixed << std::setprecision(2)` applies to the magnitude of a double
(src/metrics.h lines 65-70).  Ties are resolved upward in magnitude here;
on binary doubles exact decimal ties essentially never arise. -/
def round2 (q : ℚ) : Int :=
  if q < 0 then -⌊(-q) * 100 + 1 / 2⌋ else ⌊q * 100 + 1 / 2⌋

/-- Fixed-point rendering with exactly two fractional digits, modelling
`oss << std::fixed << std::setprecision(2) << get_average()`
(src/metrics.h lines 65-70). -/
def formatFixed2 (q : ℚ) : String :=
  (if round2 q < 0 then ("-") else (""))
    ++ toString ((round2 q).natAbs / 100) ++ "." ++ pad2 ((round2 q).natAbs % 100)

/-- Method `value_string()` of AverageMetric (src/metrics.h lines 65-70). -/
def AverageMetric.value_string (a : AverageMetric) : String :=
  formatFixed2 a.get_average

/-- Method `reset()` : under the mutex, `(sum_, count_) := (0, 0)`
(src/metrics.h lines 71-76). -/
def AverageMetric.reset (a : AverageMetric) : AverageMetric :=
  { a with sum_ := 0, count_ := 0 }

/-- A registered metric as the registry sees it through the `IMetric`
interface (src/metrics.h lines 17-24): one of the two variants. -/
inductive Metric where
  | counter (c : CounterMetric)
  | average (a : AverageMetric)
deriving DecidableEq

/-- Virtual `name()` dispatch (src/metrics.h line 21). -/
def Metric.name : Metric → String
  | .counter c => c.name
  | .average a => a.name

/-- Virtual `value_string()` dispatch (src/metrics.h line 22). -/
def Metric.value_string : Metric → String
  | .counter c => c.value_string
  | .average a => a.value_string

/-- Virtual `reset()` dispatch (src/metrics.h line 23). -/
def Metric.reset : Metric → Metric
  | .counter c => .counter c.reset
  | .average a => .average a.reset

/-- A metric is in its reset (initial) state: counter accumulator 0,
average pair (0, 0). -/
def Metric.isReset : Metric → Bool
  | .counter c => c.value_ == 0
  | .average a => a.sum_ == 0 && a.count_ == 0

/-- Broken-down wall-clock instant captured at the top of `flush_locked`
(src/metrics.h lines 137-139): local calendar time plus the millisecond
remainder of the epoch duration modulo 1000. -/
structure Timestamp where
  year : Nat
  month : Nat
  day : Nat
  hour : Nat
  minute : Nat
  second : Nat
  millisecond : Nat
deriving DecidableEq

/-- Timestamp rendering `put_time(.., "%Y-%m-%d %H:%M:%S") << "." <<
setw(3) << setfill('0') << ms` (src/metrics.h lines 141-143). -/
def formatTimestamp (t : Timestamp) : String :=
  toString t.year ++ "-" ++ pad2 t.month ++ "-" ++ pad2 t.day ++ " "
    ++ pad2 t.hour ++ ":" ++ pad2 t.minute ++ ":" ++ pad2 t.second
    ++ "." ++ pad3 t.millisecond

/-- MetricsRegistry state (src/metrics.h lines 86-169): target filename,
flush period, the ordered metric list, and the stop flag.  The mutex,
condition variable and worker thread are modelled separately as the
transition systems below. -/
structure MetricsRegistry where
  filename_ : String
  flush_period_ms_ : Nat
  metrics_ : List Metric
  stop_flag_ : Bool
deriving DecidableEq

/-- Constructor (src/metrics.h lines 89-94): empty metric list, stop flag
false.  The C++ default period is 1000 ms. -/
def MetricsRegistry.new (filename : String) (flush_period_ms : Nat) : MetricsRegistry :=
  ⟨filename, flush_period_ms, [], false⟩

/-- Method `register_metric` (src/metrics.h lines 107-114): under the
mutex, push the new metric at the back of the list. -/
def MetricsRegistry.register_metric (reg : MetricsRegistry) (m : Metric) : MetricsRegistry :=
  { reg with metrics_ := reg.metrics_ ++ [m] }

/-- One field of the record the flush loop emits for one metric:
`" \"" << name << "\" " << value_string` (src/metrics.h line 147). -/
def metricField (m : Metric) : String :=
  " \"" ++ m.name ++ "\" " ++ m.value_string

/-- The ordered (name, rendered value) pairs captured from a metric list:
one pair per metric, in list (= registration) order. -/
def recordEntries (ms : List Metric) : List (String × String) :=
  ms.map fun m => (m.name, m.value_string)

/-- Rendering of one (name, value) entry into its record field. -/
def entryField (e : String × String) : String :=
  " \"" ++ e.1 ++ "\" " ++ e.2

/-- The full record composed by `flush_locked` before writing: timestamp,
then one field per metric in insertion order, then a newline
(src/metrics.h lines 141-149). -/
def composeRecord (ts : Timestamp) (ms : List Metric) : String :=
  formatTimestamp ts ++ String.join (ms.map metricField) ++ "\n"

/-- Method `flush_locked` (src/metrics.h lines 135-160), run with the
registry mutex held.  Sequencing as in the source: (1) the record is
composed from the pre-flush metric states; (2) the record is handed to
the sink in one appending write (`std::ofstream(filename_, std::ios::app)`
followed by a single `<<`), which appends exactly when the write succeeds
(`writeOk`); (3) only then is every metric reset, in the same order.  The
`Option String` component is the error indication available to the caller:
the source never inspects the stream state after the write and returns
`void`, so it is always `none`. -/
def flush_locked (ts : Timestamp) (writeOk : Bool) (reg : MetricsRegistry)
    (sink : List String) : (MetricsRegistry × List String) × Option String :=
  let record := composeRecord ts reg.metrics_
  let sink2 := if writeOk then sink ++ [record] else sink
  (({ reg with metrics_ := reg.metrics_.map Metric.reset }, sink2), none)

/-- Method `flush_now` (src/metrics.h lines 116-120): take the registry
mutex and run `flush_locked`.  Returns `void` in the source; the model
therefore surfaces no error to the caller beyond `flush_locked`'s
always-`none` component. -/
def flush_now (ts : Timestamp) (writeOk : Bool) (reg : MetricsRegistry)
    (sink : List String) : (MetricsRegistry × List String) × Option String :=
  flush_locked ts writeOk reg sink

/-- Action visible in the worker loop's trace: one flush cycle, or the
final exit of the loop (after which the thread terminates and the
destructor's `join` returns). -/
inductive WorkerAct where
  | flush
  | stopped
deriving DecidableEq

/-- Method `worker_func` (src/metrics.h lines 123-133) as a trace
function.  The loop body, run with the registry mutex held, is:
`while (!stop_flag_) { cond_.wait_for(lock, period); if (stop_flag_)
break; flush_locked(); }`.  Each list element gives the two values of
`stop_flag_` the loop reads in one iteration: at the `while` condition,
and after `wait_for` returns (the wait ends on timeout or on the
destructor's `notify_one`, so a stop signal is observed without waiting
out a further full period).  The trace records the flush cycles performed
and ends with `stopped` when a read of the flag is true. -/
def worker_func : List (Bool × Bool) → List WorkerAct
  | [] => []
  | (sTop, sWake) :: rest =>
    if sTop then [.stopped]
    else if sWake then [.stopped]
    else .flush :: worker_func rest

/-- Every flag value read in the schedule is true. -/
def allStopped (reads : List (Bool × Bool)) : Bool :=
  reads.all fun p => p.1 && p.2

/-- The stop flag is monotone across a schedule: once a read returns
true, every later read returns true.  This is how `stop_flag_` behaves in
the source: it starts false and the destructor's single write under the
mutex (src/metrics.h lines 97-101) is the only mutation. -/
def monoStop : List (Bool × Bool) → Bool
  | [] => true
  | (a, b) :: rest =>
    (!a || (b && allStopped rest)) && (!b || allStopped rest) && monoStop rest

/-- Some read in the schedule returns true: the destructor has set the
stop flag and its `notify_one` guarantees the sleeping worker wakes and
performs such a read. -/
def stopSeen (reads : List (Bool × Bool)) : Bool :=
  reads.any fun p => p.1 || p.2

/-- Where a thread contending for the registry mutex is: outside any
flush, or inside `flush_locked`. -/
inductive TLoc where
  | outside
  | flushing
deriving DecidableEq

/-- Joint state of the two flush initiators of src/metrics.h: the caller
of `flush_now` (lines 116-120) and the worker thread (lines 123-133),
together with who currently holds `mutex_` (`some false` = the `flush_now`
caller, `some true` = the worker, `none` = free). -/
structure LockState where
  holder : Option Bool
  manualLoc : TLoc
  workerLoc : TLoc
deriving DecidableEq

/-- Initial state: mutex free, both threads outside a flush. -/
def lockInit : LockState :=
  ⟨none, .outside, .outside⟩

/-- Interleaving semantics of the two flush paths.  Either thread enters
`flush_locked` only by acquiring the free mutex (`std::lock_guard` in
`flush_now`, the held `unique_lock` after `wait_for` re-acquires in
`worker_func`), and releases it when its flush cycle ends. -/
inductive LStep : LockState → LockState → Prop where
  | manualAcquire (s : LockState) :
      s.holder = none → s.manualLoc = .outside →
      LStep s ⟨some false, .flushing, s.workerLoc⟩
  | manualRelease (s : LockState) :
      s.manualLoc = .flushing →
      LStep s ⟨none, .outside, s.workerLoc⟩
  | workerAcquire (s : LockState) :
      s.holder = none → s.workerLoc = .outside →
      LStep s ⟨some true, s.manualLoc, .flushing⟩
  | workerRelease (s : LockState) :
      s.workerLoc = .flushing →
      LStep s ⟨none, s.manualLoc, .outside⟩

/-- States reachable from the initial lock state. -/
def LReach (s : LockState) : Prop :=
  Relation.ReflTransGen LStep lockInit s

/-- The mutex invariant: a thread is inside `flush_locked` only while it
holds the registry mutex. -/
def LockInv (s : LockState) : Prop :=
  (s.manualLoc = TLoc.flushing → s.holder = some false)
  ∧ (s.workerLoc = TLoc.flushing → s.holder = some true)

/-- A sequence of `increment` calls applied to a counter.  `fetch_add` is
atomic, so every interleaving of concurrent increments is equivalent to
some sequential order, which this fold captures. -/
def applyIncrements (c : CounterMetric) (ds : List Int) : CounterMetric :=
  ds.foldl CounterMetric.increment c

/-- A sequence of `add` calls applied to an average.  `add` updates the
pair under one mutex, so every interleaving of concurrent adds is
equivalent to some sequential order, which this fold captures. -/
def applyAdds (a : AverageMetric) (vs : List ℚ) : AverageMetric :=
  vs.foldl AverageMetric.add a

theorem two_pow_32_int : (2 : Int) ^ 32 = 4294967296 := by norm_num

theorem two_pow_31_int : (2 : Int) ^ 31 = 2147483648 := by norm_num

theorem two_pow_32_nat : (2 : Nat) ^ 32 = 4294967296 := by norm_num

theorem two_pow_31_nat : (2 : Nat) ^ 31 = 2147483648 := by norm_num

/-- The accumulator after a sequence of increments is the initial pattern
plus the sum of the deltas, modulo `2 ^ 32`. -/
theorem applyIncrements_value (ds : List Int) (c : CounterMetric) (h : c.value_ < 2 ^ 32) :
    (applyIncrements c ds).value_ = (((c.value_ : Int) + ds.sum) % (2 ^ 32)).toNat := by
  induction ds generalizing c with
  | nil =>
    simp only [applyIncrements, List.foldl_nil, List.sum_nil, add_zero]
    rw [Int.emod_eq_of_lt (by positivity) (by exact_mod_cast h)]
    simp
  | cons d ds ih =>
    have h1 : (0 : Int) ≤ ((c.value_ : Int) + d) % (2 ^ 32) :=
      Int.emod_nonneg _ (by positivity)
    have h2 : ((c.value_ : Int) + d) % (2 ^ 32) < 2 ^ 32 :=
      Int.emod_lt_of_pos _ (by positivity)
    have hlt : (c.increment d).value_ < 2 ^ 32 := by
      simp only [CounterMetric.increment]
      rw [two_pow_32_nat]
      rw [two_pow_32_int] at h1 h2
      omega
    have hind := ih (c.increment d) hlt
    simp only [applyIncrements, List.foldl_cons, List.sum_cons] at hind ⊢
    rw [hind]
    simp only [CounterMetric.increment]
    rw [Int.toNat_of_nonneg h1]
    congr 1
    conv_lhs => rw [Int.add_emod, Int.emod_emod_of_dvd _ dvd_rfl, ← Int.add_emod]
    rw [← add_assoc]

/-- C5 counterexample: on a fresh Counter, `increment(2 ^ 31 - 1)` followed
by `increment(1)` (both deltas are valid `int` values) leaves `get()` at
`-(2 ^ 31)`, not at the exact sum `2 ^ 31` of the deltas: the 32-bit
accumulator wraps, so `get()` does not always equal the sum of the
deltas. -/
theorem C5_counterexample :
    (((CounterMetric.new ("c")).increment (2 ^ 31 - 1)).increment 1).get ≠ (2 ^ 31 - 1) + 1 := by
  decide

/-- C5 (amended): for every sequence of `increment(delta_i)` calls on a
fresh Counter (deltas may be negative, no precondition), `get()` equals the
sum of the deltas reduced modulo `2 ^ 32` into the signed 32-bit range; in
particular it equals the exact sum whenever that sum lies in
`[-2 ^ 31, 2 ^ 31)` — so N concurrent `increment(1)` calls yield exactly N
for every N below `2 ^ 31`. -/
theorem C5_counter_sum_of_deltas (name : String) (ds : List Int) :
    (applyIncrements (CounterMetric.new name) ds).get
        = toSigned32 ((ds.sum % (2 ^ 32)).toNat)
    ∧ (-(2 ^ 31) ≤ ds.sum → ds.sum < 2 ^ 31 →
        (applyIncrements (CounterMetric.new name) ds).get = ds.sum) := by
  have hv : (applyIncrements (CounterMetric.new name) ds).value_
      = (ds.sum % (2 ^ 32)).toNat := by
    have h := applyIncrements_value ds (CounterMetric.new name) (by norm_num [CounterMetric.new])
    simpa [CounterMetric.new] using h
  refine ⟨by rw [CounterMetric.get, hv], fun h1 h2 => ?_⟩
  rw [CounterMetric.get, hv]
  have hge : (0 : Int) ≤ ds.sum % (2 ^ 32) := Int.emod_nonneg _ (by positivity)
  have hlt : ds.sum % (2 ^ 32) < 2 ^ 32 := Int.emod_lt_of_pos _ (by positivity)
  have hval : ds.sum % (2 ^ 32) = if 0 ≤ ds.sum then ds.sum else ds.sum + 2 ^ 32 := by
    split
    · exact Int.emod_eq_of_lt (by assumption) (by rw [two_pow_32_int] at *; omega)
    · have hshift := Int.add_mul_emod_self_left ds.sum ((2 : Int) ^ 32) 1
      rw [mul_one] at hshift
      rw [← hshift]
      exact Int.emod_eq_of_lt (by rw [two_pow_32_int] at *; omega)
        (by rw [two_pow_32_int] at *; omega)
  rw [toSigned32]
  rw [two_pow_32_int, two_pow_31_int, two_pow_31_nat] at *
  split <;> omega

/-- Witness for C5's amended theorem: three increments summing to 6, a sum
inside the signed 32-bit range, give `get() = 6`. -/
theorem C5_counter_sum_of_deltas_witness :
    (-(2 ^ 31) : Int) ≤ ([1, 2, 3] : List Int).sum
    ∧ ([1, 2, 3] : List Int).sum < 2 ^ 31
    ∧ (applyIncrements (CounterMetric.new ("c")) [1, 2, 3]).get = ([1, 2, 3] : List Int).sum :=
  ⟨by decide, by decide,
    (C5_counter_sum_of_deltas ("c") [1, 2, 3]).2 (by decide) (by decide)⟩

/-- C7: after `reset()`, a Counter's `get()` is 0 and an Average's mean is
0, regardless of the prior state of the metric. -/
theorem C7_reset_state :
    (∀ c : CounterMetric, c.reset.get = 0)
    ∧ (∀ a : AverageMetric, a.reset.get_average = 0) := by
  constructor
  · intro c
    simp [CounterMetric.reset, CounterMetric.get, toSigned32]
  · intro a
    simp [AverageMetric.reset, AverageMetric.get_average]

/-- C10: the counter accumulator is a fixed-width 32-bit cell:
`increment` adds modulo `2 ^ 32` (first conjunct, definitional), and the
concrete increment sequence `2 ^ 31 - 1` then `1` — whose true sum
`2 ^ 31` is positive — wraps `get()` to the negative value `-(2 ^ 31)`. -/
theorem C10_counter_wraps :
    (∀ (c : CounterMetric) (v : Int),
        (c.increment v).value_ = ((((c.value_ : Int) + v) % (2 ^ 32)).toNat))
    ∧ (((CounterMetric.new ("n")).increment (2 ^ 31 - 1)).increment 1).get = -(2 ^ 31)
    ∧ ((2 ^ 31 - 1 : Int) + 1 = 2 ^ 31 ∧ (0 : Int) < 2 ^ 31) :=
  ⟨fun _ _ => rfl, by decide, by norm_num⟩

/-- State of an average after a sequence of adds: the sum and the count
of the samples accumulate. -/
theorem applyAdds_fields (vs : List ℚ) (a : AverageMetric) :
    (applyAdds a vs).sum_ = a.sum_ + vs.sum
    ∧ (applyAdds a vs).count_ = a.count_ + vs.length := by
  induction vs generalizing a with
  | nil => simp [applyAdds]
  | cons v vs ih =>
    have h := ih (a.add v)
    simp only [applyAdds, List.foldl_cons, List.sum_cons, List.length_cons] at h ⊢
    refine ⟨?_, ?_⟩
    · rw [h.1]
      simp only [AverageMetric.add]
      ring
    · rw [h.2]
      simp only [AverageMetric.add]
      omega

theorem pad2_length : ∀ n : Nat, n < 100 → (pad2 n).length = 2 := by decide

set_option maxRecDepth 10000 in
theorem pad3_length : ∀ n : Nat, n < 1000 → (pad3 n).length = 3 := by decide

theorem round2_zero : round2 0 = 0 := by norm_num [round2]

theorem formatFixed2_zero : formatFixed2 0 = "0.00" := by
  simp [formatFixed2, round2_zero, pad2]
  rfl

/-- C6: after any sequence of `add(v_i)` calls on a fresh Average the mean
is the arithmetic mean of the samples (with the empty quotient 0/0 read as
0); the mean of a fresh or freshly reset Average is 0; the rendering is
the mean formatted with exactly two fractional digits, and is "0.00"
whenever the count is 0. -/
theorem C6_average_mean (nm : String) (vs : List ℚ) :
    (applyAdds (AverageMetric.new nm) vs).get_average = vs.sum / (vs.length : ℚ)
    ∧ (AverageMetric.new nm).get_average = 0
    ∧ (∀ a : AverageMetric, a.reset.get_average = 0)
    ∧ (∀ a : AverageMetric, a.value_string = formatFixed2 a.get_average)
    ∧ (∀ a : AverageMetric, a.count_ = 0 → a.value_string = "0.00")
    ∧ (∀ q : ℚ, (pad2 ((round2 q).natAbs % 100)).length = 2
        ∧ formatFixed2 q = (if round2 q < 0 then ("-") else (""))
            ++ toString ((round2 q).natAbs / 100) ++ "." ++ pad2 ((round2 q).natAbs % 100)) := by
  obtain ⟨hs, hc⟩ := applyAdds_fields vs (AverageMetric.new nm)
  refine ⟨?_, ?_, fun a => ?_, fun a => rfl, fun a h0 => ?_, fun q => ⟨?_, rfl⟩⟩
  · rw [AverageMetric.get_average, hs, hc]
    simp only [AverageMetric.new, zero_add, Nat.zero_add]
    split
    · rename_i hlen
      rw [List.length_eq_zero.mp hlen]
      simp
    · rfl
  · simp [AverageMetric.new, AverageMetric.get_average]
  · simp [AverageMetric.reset, AverageMetric.get_average]
  · have hone : a.get_average = 0 := by simp [AverageMetric.get_average, h0]
    rw [AverageMetric.value_string, hone, formatFixed2_zero]
  · exact pad2_length _ (Nat.mod_lt _ (by norm_num))

/-- Witness for C6: adding 2 and 4 to a fresh Average gives mean 3, and a
fresh Average (count 0) renders as "0.00". -/
theorem C6_average_mean_witness :
    (applyAdds (AverageMetric.new ("A")) [2, 4]).get_average = 3
    ∧ (AverageMetric.new ("A")).count_ = 0
    ∧ (AverageMetric.new ("A")).value_string = "0.00" := by
  refine ⟨?_, rfl, (C6_average_mean ("A") []).2.2.2.2.1 (AverageMetric.new ("A")) rfl⟩
  have h := (C6_average_mean ("A") [2, 4]).1
  rw [h]
  norm_num

/-- Every metric is in its initial state after `reset()`. -/
theorem isReset_reset (m : Metric) : (Metric.reset m).isReset = true := by
  cases m <;> simp [Metric.reset, Metric.isReset, CounterMetric.reset, AverageMetric.reset]

/-- C1: one flush cycle renders every registered metric of the pre-flush
registry state, in insertion order, into the record (exactly one
(name, value) entry per metric); the composed record is handed to the
sink in one appending write; and only the post-record registry state has
the metrics reset — every metric's state after the cycle is its reset
value.  The record depends only on the pre-flush metric states, which is
the render-all-before-reset-any ordering of src/metrics.h lines 145-159. -/
theorem C1_flush_cycle (ts : Timestamp) (reg : MetricsRegistry) (sink : List String) :
    (flush_locked ts true reg sink).1.2
        = sink ++ [formatTimestamp ts
            ++ String.join ((recordEntries reg.metrics_).map entryField) ++ "\n"]
    ∧ recordEntries reg.metrics_ = reg.metrics_.map (fun m => (m.name, m.value_string))
    ∧ (recordEntries reg.metrics_).length = reg.metrics_.length
    ∧ (flush_locked ts true reg sink).1.1.metrics_ = reg.metrics_.map Metric.reset
    ∧ (flush_locked ts true reg sink).1.1.metrics_.all Metric.isReset = true := by
  refine ⟨?_, rfl, by simp [recordEntries], rfl, ?_⟩
  · have hmaps : (recordEntries reg.metrics_).map entryField = reg.metrics_.map metricField := by
      simp only [recordEntries, List.map_map]
      rfl
    rw [hmaps]
    rfl
  simp only [flush_locked, List.all_eq_true]
  intro m hm
  obtain ⟨m0, _, hm0⟩ := List.mem_map.mp hm
  rw [← hm0]
  exact isReset_reset m0

/-- C2: the record of one flush cycle is a single newline-terminated line:
the timestamp formatted as zero-padded `YYYY-MM-DD HH:MM:SS.mmm`, then for
each metric in insertion order a space, the quoted name, a space and the
rendered value; the sink receives it by appending, never overwriting. -/
theorem C2_record_format (ts : Timestamp) (reg : MetricsRegistry) (sink : List String) :
    (flush_locked ts true reg sink).1.2 = sink ++ [composeRecord ts reg.metrics_]
    ∧ composeRecord ts reg.metrics_
        = formatTimestamp ts ++ String.join (reg.metrics_.map metricField) ++ "\n"
    ∧ formatTimestamp ts
        = toString ts.year ++ "-" ++ pad2 ts.month ++ "-" ++ pad2 ts.day ++ " "
          ++ pad2 ts.hour ++ ":" ++ pad2 ts.minute ++ ":" ++ pad2 ts.second
          ++ "." ++ pad3 ts.millisecond
    ∧ (∀ m : Metric, metricField m = " \"" ++ m.name ++ "\" " ++ m.value_string)
    ∧ (∀ n : Nat, n < 10 → pad2 n = "0" ++ toString n)
    ∧ (∀ n : Nat, n < 100 → (pad2 n).length = 2)
    ∧ (∀ n : Nat, n < 1000 → (pad3 n).length = 3) :=
  ⟨rfl, rfl, rfl, fun _ => rfl, fun n h => by simp [pad2, h], pad2_length, pad3_length⟩

/-- Witness for C2: the zero-padding facts at concrete inputs, through the
theorem itself. -/
theorem C2_record_format_witness :
    (5 : Nat) < 10 ∧ pad2 5 = "0" ++ toString (5 : Nat) :=
  ⟨by norm_num,
    (C2_record_format ⟨2024, 3, 7, 9, 5, 2, 45⟩ (MetricsRegistry.new ("metrics.log") 1000)
      []).2.2.2.2.1 5 (by norm_num)⟩

/-- C9: a flush cycle over a registry with no registered metrics still
appends exactly one record: the timestamp immediately followed by the
newline, with no (name, value) fields. -/
theorem C9_empty_registry_record (ts : Timestamp) (reg : MetricsRegistry) (sink : List String)
    (h : reg.metrics_ = []) :
    (flush_locked ts true reg sink).1.2 = sink ++ [formatTimestamp ts ++ "\n"]
    ∧ (flush_locked ts true reg sink).1.2.length = sink.length + 1 := by
  constructor
  · simp [flush_locked, composeRecord, h, String.join]
  · simp [flush_locked]

/-- Witness for C9: a freshly constructed registry has no metrics and its
flush appends the bare timestamp line. -/
theorem C9_empty_registry_record_witness :
    (MetricsRegistry.new ("metrics.log") 1000).metrics_ = []
    ∧ (flush_locked ⟨2024, 3, 7, 9, 5, 2, 45⟩ true (MetricsRegistry.new ("metrics.log") 1000)
          []).1.2
        = [] ++ [formatTimestamp ⟨2024, 3, 7, 9, 5, 2, 45⟩ ++ "\n"] :=
  ⟨rfl, (C9_empty_registry_record ⟨2024, 3, 7, 9, 5, 2, 45⟩
      (MetricsRegistry.new ("metrics.log") 1000) [] rfl).1⟩

/-- C8 counterexample: `flush_now` on a registry holding a counter at 5,
with the sink write failing, hands its caller no failure indication at
all — the error component is `none` exactly as on success, because
src/metrics.h lines 151-154 never inspect the stream state and `flush_now`
returns `void`.  The cycle still resets the metric and appends nothing,
so the failure is silently swallowed rather than surfaced. -/
theorem C8_counterexample :
    (flush_now ⟨2024, 3, 7, 9, 5, 2, 45⟩ false
        ((MetricsRegistry.new ("f") 1000).register_metric
          (.counter ((CounterMetric.new ("C")).increment 5))) []).2 = none
    ∧ (flush_now ⟨2024, 3, 7, 9, 5, 2, 45⟩ false
        ((MetricsRegistry.new ("f") 1000).register_metric
          (.counter ((CounterMetric.new ("C")).increment 5))) []).1.1.metrics_
        = [.counter (CounterMetric.new ("C"))]
    ∧ (flush_now ⟨2024, 3, 7, 9, 5, 2, 45⟩ false
        ((MetricsRegistry.new ("f") 1000).register_metric
          (.counter ((CounterMetric.new ("C")).increment 5))) []).1.2 = [] :=
  ⟨rfl, rfl, rfl⟩

/-- C8 (amended): a sink-write failure is never surfaced to the caller of
`flush_now` — the caller-visible outcome is identical on success and
failure; a failed write appends nothing; metrics are reset regardless of
the write outcome; the scheduler path runs the same `flush_locked`, so it
does not crash either, and the next cycle (which reopens the file) still
attempts — and on success performs — a fresh append. -/
theorem C8_swallowed_write_failure (ts ts2 : Timestamp) (writeOk : Bool)
    (reg : MetricsRegistry) (sink : List String) :
    (flush_now ts writeOk reg sink).2 = none
    ∧ (flush_now ts false reg sink).1.2 = sink
    ∧ (flush_now ts writeOk reg sink).1.1.metrics_ = reg.metrics_.map Metric.reset
    ∧ (flush_locked ts2 true (flush_now ts false reg sink).1.1
          (flush_now ts false reg sink).1.2).1.2
        = sink ++ [composeRecord ts2 (reg.metrics_.map Metric.reset)] :=
  ⟨rfl, rfl, rfl, rfl⟩

/-- C3: with the stop flag monotone (the destructor's single write under
the mutex is its only mutation) and observed by some read (the
destructor's `notify_one` ends the worker's `wait_for`, so the worker
re-checks the flag without waiting out a further full period), the worker
trace is some number of complete flush cycles followed by the loop exit,
and that number is exactly the count of full iterations before a true
read: no flush cycle happens after stop is observed, a cycle in flight
(between the two reads of its iteration) runs to completion, and the
trace being finite and exit-terminated is what the destructor's `join`
waits for before destruction completes. -/
theorem C3_shutdown_trace (reads : List (Bool × Bool)) (hmono : monoStop reads = true)
    (hseen : stopSeen reads = true) :
    ∃ k : Nat, worker_func reads = List.replicate k WorkerAct.flush ++ [WorkerAct.stopped]
      ∧ k = (reads.takeWhile fun p => !p.1 && !p.2).length := by
  induction reads with
  | nil => simp [stopSeen] at hseen
  | cons p rest ih =>
    obtain ⟨a, b⟩ := p
    cases a with
    | true =>
      refine ⟨0, ?_, ?_⟩
      · simp [worker_func]
      · simp [List.takeWhile]
    | false =>
      cases b with
      | true =>
        refine ⟨0, ?_, ?_⟩
        · simp [worker_func]
        · simp [List.takeWhile]
      | false =>
        have hmono2 : monoStop rest = true := by
          simp only [monoStop, Bool.not_false, Bool.true_or, Bool.and_eq_true,
            Bool.or_eq_true] at hmono
          exact hmono.2
        have hseen2 : stopSeen rest = true := by
          simp only [stopSeen, List.any_cons, Bool.or_eq_true, Bool.or_self] at hseen ⊢
          rcases hseen with h | h
          · simp at h
          · exact h
        obtain ⟨k, hk1, hk2⟩ := ih hmono2 hseen2
        refine ⟨k + 1, ?_, ?_⟩
        · simp [worker_func, hk1, List.replicate_succ]
        · simp [List.takeWhile, hk2]

/-- Witness for C3: a schedule with one undisturbed iteration, then the
stop flag set; the worker performs exactly that one flush and exits. -/
theorem C3_shutdown_trace_witness :
    monoStop [(false, false), (true, true)] = true
    ∧ stopSeen [(false, false), (true, true)] = true
    ∧ ∃ k : Nat, worker_func [(false, false), (true, true)]
          = List.replicate k WorkerAct.flush ++ [WorkerAct.stopped]
        ∧ k = (([(false, false), (true, true)] : List (Bool × Bool)).takeWhile
            fun p => !p.1 && !p.2).length :=
  ⟨by decide, by decide, C3_shutdown_trace [(false, false), (true, true)] (by decide) (by decide)⟩

theorem lockInv_init : LockInv lockInit := by
  constructor <;> intro h <;> simp [lockInit] at h

theorem lockInv_step {s t : LockState} (hs : LockInv s) (hstep : LStep s t) : LockInv t := by
  cases hstep with
  | manualAcquire h1 h2 =>
    refine ⟨fun _ => rfl, fun hw => ?_⟩
    have h3 := hs.2 hw
    simp [h1] at h3
  | manualRelease h =>
    refine ⟨fun hm => by simp at hm, fun hw => ?_⟩
    have h3 := hs.2 hw
    have h4 := hs.1 h
    rw [h4] at h3
    simp at h3
  | workerAcquire h1 h2 =>
    refine ⟨fun hm => ?_, fun _ => rfl⟩
    have h3 := hs.1 hm
    simp [h1] at h3
  | workerRelease h =>
    refine ⟨fun hm => ?_, fun hw => by simp at hw⟩
    have h3 := hs.1 hm
    have h4 := hs.2 h
    rw [h4] at h3
    simp at h3

theorem lockInv_reach {s : LockState} (h : LReach s) : LockInv s := by
  induction h with
  | refl => exact lockInv_init
  | tail _ hstep ih => exact lockInv_step ih hstep

/-- C4: in every state reachable by interleaving a `flush_now` caller and
the worker thread, both contending for the one registry mutex that guards
`flush_locked`, the two are never inside a flush cycle at the same time:
manual and periodic flushes serialize. -/
theorem C4_flush_mutual_exclusion (s : LockState) (h : LReach s) :
    ¬ (s.manualLoc = TLoc.flushing ∧ s.workerLoc = TLoc.flushing) := by
  rintro ⟨h1, h2⟩
  have hi := lockInv_reach h
  have hm := hi.1 h1
  have hw := hi.2 h2
  rw [hm] at hw
  cases hw

/-- Witness for C4: the state in which the manual flush holds the mutex,
reached by one acquire step from the initial state. -/
theorem C4_flush_mutual_exclusion_witness :
    LReach ⟨some false, TLoc.flushing, TLoc.outside⟩
    ∧ ¬ ((⟨some false, TLoc.flushing, TLoc.outside⟩ : LockState).manualLoc = TLoc.flushing
        ∧ (⟨some false, TLoc.flushing, TLoc.outside⟩ : LockState).workerLoc = TLoc.flushing) :=
  ⟨Relation.ReflTransGen.single (LStep.manualAcquire lockInit rfl rfl),
    C4_flush_mutual_exclusion ⟨some false, TLoc.flushing, TLoc.outside⟩
      (Relation.ReflTransGen.single (LStep.manualAcquire lockInit rfl rfl))⟩

end Metrics
